import Mathlib

/-!
Shallow embedding of the charger-sim repository (src/src/App.tsx and
src/src/api.ts): the synthetic telemetry generator, the energy integrator,
and the session state machine driving the Collector network calls.

JavaScript numbers are modelled as exact rationals (ℚ); each call of
`Math.random()` becomes an explicit parameter `r` with `0 ≤ r < 1`.
Asynchronous behaviour (React state updates, promise settlement, interval
timers) is modelled as a small-step event semantics: the host's
single-threaded event queue delivers one event at a time, and each event is
interpreted by a step function over an explicit machine state.
-/

namespace ChargerSim

/-- Session lifecycle status, from `type SessionStatus` in App.tsx. -/
inductive SessionStatus
  | idle
  | starting
  | running
  | stopping
  | error
deriving DecidableEq, Repr

/-- The simulated instantaneous charger readings, from `interface ChargerState`
in App.tsx. -/
structure ChargerState where
  soc : ℚ
  powerW : ℚ
  voltageV : ℚ
  currentA : ℚ
  tempC : ℚ
deriving DecidableEq, Repr

/-- Constant `INITIAL_SOC = 20` from App.tsx. -/
def INITIAL_SOC : ℚ := 20

/-- Constant `TARGET_SOC = 90` from App.tsx. -/
def TARGET_SOC : ℚ := 90

/-- Constant `INTERVAL_SECONDS = 1` from App.tsx. -/
def INTERVAL_SECONDS : ℚ := 1

/-- The charger state installed by `useState` and restored by `stopSession`
in App.tsx: soc 20, power 0, voltage 400, current 0, temperature 20. -/
def initialChargerState : ChargerState :=
  { soc := INITIAL_SOC, powerW := 0, voltageV := 400, currentA := 0, tempC := 20 }

/-- `generateNextState` from App.tsx with the hardcoded voltage-band
constants (380 and 40 in the source) abstracted as parameters, so that
configurations with other voltage bands can be expressed.  The four
`Math.random()` calls become the parameters `rS rV rP rT`.  The function is
total exactly as the source function is: there is no guard on the voltage
and no failure path, and `currentA` is computed by the unguarded division
`powerW / voltageV` (division by zero is the ℚ convention `x / 0 = 0`,
standing in for the JS value `Infinity`). -/
def generateNextStateBand (vBase vSpan : ℚ) (prev : ChargerState)
    (rS rV rP rT : ℚ) : ChargerState :=
  let soc := min TARGET_SOC (prev.soc + 1 + rS * 1)
  let voltageV := vBase + rV * vSpan
  let socPercent := soc / 100
  let socFactor := 1 - max 0 (socPercent - 0.6) * 1.5
  let maxPower : ℚ := 50000
  let powerBase := maxPower * max 0.2 socFactor
  let powerW := powerBase * (0.9 + rP * 0.2)
  let currentA := powerW / voltageV
  let tempC := prev.tempC + rT * 0.5
  { soc := soc, powerW := powerW, voltageV := voltageV,
    currentA := currentA, tempC := tempC }

/-- `generateNextState` from App.tsx, with its hardcoded voltage band
`380 + Math.random() * 40`. -/
def generateNextState (prev : ChargerState) (rS rV rP rT : ℚ) : ChargerState :=
  generateNextStateBand 380 40 prev rS rV rP rT

/-- One energy-integration increment, from `sendUpdate` in App.tsx:
`powerKW = powerW / 1000`, `timeHours = intervalSeconds / 3600`,
`energyIncrement = powerKW * timeHours` (kWh). -/
def energyIncrement (powerW intervalSeconds : ℚ) : ℚ :=
  (powerW / 1000) * (intervalSeconds / 3600)

/-- One step of the energy integrator: add the increment to the running
accumulator, as `setEnergyDispensed((prev) => prev + energyIncrement)` does. -/
def energyStep (e powerW intervalSeconds : ℚ) : ℚ :=
  e + energyIncrement powerW intervalSeconds

/-- The accumulator after `n` ticks of constant power `powerW` at interval
`intervalSeconds`, starting from `e0`. -/
def energyAfterTicks (e0 powerW intervalSeconds : ℚ) : ℕ → ℚ
  | 0 => e0
  | n + 1 => energyStep (energyAfterTicks e0 powerW intervalSeconds n) powerW intervalSeconds

/-- Rounding of a numeric field to 2 decimal places, modelling
`parseFloat(x.toFixed(2))` in App.tsx. -/
def round2 (x : ℚ) : ℚ := (round (x * 100) : ℤ) / 100

/-- The update-record shape `ChargeUpdatePayload` from api.ts. -/
structure ChargeUpdatePayload where
  sample_time_increment : ℚ
  soc : ℚ
  temp_c : ℚ
  avg_power_w : ℚ
  avg_current_a : ℚ
  avg_voltage_v : ℚ
deriving DecidableEq, Repr

/-- The payload built from a charger state, as built both in `sendUpdate`
(from the freshly generated state) and in `stopSession` (from the last
known state) in App.tsx: every numeric field rounded to 2 decimal places. -/
def mkPayload (cs : ChargerState) : ChargeUpdatePayload :=
  { sample_time_increment := INTERVAL_SECONDS
  , soc := round2 cs.soc
  , temp_c := round2 cs.tempC
  , avg_power_w := round2 cs.powerW
  , avg_current_a := round2 cs.currentA
  , avg_voltage_v := round2 cs.voltageV }

/-- A network request issued to the Collector, as emitted by the three
functions of api.ts.  The `endSession` constructor records the transmitted
request body: `endCharge` in api.ts takes only the transaction id and sends
a request with no body, so the body field of an emitted end call is always
`none`. -/
inductive NetCall
  | startSession (startedAt : ℕ) (socStart : ℚ)
  | sendUpdate (tid : String) (payload : ChargeUpdatePayload)
  | endSession (tid : String) (body : Option ChargeUpdatePayload)
deriving DecidableEq, Repr

/-- `startCharge` from api.ts: issues a start request carrying the start
timestamp and the initial SOC. -/
def startCharge (startedAt : ℕ) (socStart : ℚ) : NetCall :=
  NetCall.startSession startedAt socStart

/-- `sendChargeUpdate` from api.ts: issues an update request carrying the
transaction id and the payload. -/
def sendChargeUpdate (tid : String) (payload : ChargeUpdatePayload) : NetCall :=
  NetCall.sendUpdate tid payload

/-- `endCharge` from api.ts.  Its signature is
`endCharge(transactionId: string)`: it takes no payload argument and the
POST request it issues has no body, so the second argument that
`stopSession` in App.tsx passes (`finalPayload`) is dropped and never
transmitted. -/
def endCharge (tid : String) : NetCall :=
  NetCall.endSession tid none

/-- Recognizer for end-session calls. -/
def isEndSession : NetCall → Bool
  | NetCall.endSession _ _ => true
  | _ => false

/-- Recognizer for update calls. -/
def isSendUpdate : NetCall → Bool
  | NetCall.sendUpdate _ _ => true
  | _ => false

/-- Recognizer for start-session calls. -/
def isStartSession : NetCall → Bool
  | NetCall.startSession _ _ => true
  | _ => false

/-- The machine state held by the `App` component in App.tsx: the React
state hooks (`status`, `error`, `transactionId`, `chargerState`,
`startTime`, `elapsedSeconds`, `energyDispensed`), the interval handle
(`intervalRef`, modelled as the boolean `intervalActive`), the
`transaction_id` captured by the `sendUpdate` closure (`closureTid`), the
`sessionStartTime` captured by a pending `startSession` invocation
(`startReqTime`), and counters of network calls currently in flight
(`startsInFlight`, `updatesInFlight`), which gate settlement events. -/
structure Machine where
  status : SessionStatus
  err : Option String
  transactionId : Option String
  chargerState : ChargerState
  startTime : Option ℕ
  elapsedSeconds : ℕ
  energyDispensed : ℚ
  intervalActive : Bool
  closureTid : Option String
  startReqTime : Option ℕ
  startsInFlight : ℕ
  updatesInFlight : ℕ
deriving DecidableEq, Repr

/-- The initial machine: the `useState` initial values in App.tsx, no
interval active, nothing in flight. -/
def initialMachine : Machine :=
  { status := SessionStatus.idle
  , err := none
  , transactionId := none
  , chargerState := initialChargerState
  , startTime := none
  , elapsedSeconds := 0
  , energyDispensed := 0
  , intervalActive := false
  , closureTid := none
  , startReqTime := none
  , startsInFlight := 0
  , updatesInFlight := 0 }

/-- Guard on the start request, from the JSX in App.tsx: the START button is
rendered only when `!isRunning` (status is not `running`) and is disabled
while status is `starting`; in every other status a click reaches
`startSession`. -/
def startAllowed (st : SessionStatus) : Bool :=
  !(st == SessionStatus.running) && !(st == SessionStatus.starting)

/-- Guard on the stop request, from the JSX in App.tsx: the END SESSION
button is disabled unless `isRunning`. -/
def stopAllowed (st : SessionStatus) : Bool :=
  st == SessionStatus.running

/-- JavaScript string truthiness, used by `if (transaction_id)` and
`if (transactionId)` in App.tsx: a string is truthy iff it is nonempty. -/
def truthy (s : String) : Bool := !(s == "")

/-- The events delivered by the host's single-threaded event queue:
user-triggered requests, scheduler ticks, and network-call settlements.
Each `Math.random()` drawn inside a handler appears as an explicit rational
argument of the event. -/
inductive Event
  | startRequest (now : ℕ)
  | startOk (tid : String) (rS rV rP rT : ℚ)
  | startFail (msg : String)
  | tick (rS rV rP rT : ℚ)
  | updateOk
  | updateFail (msg : String)
  | stopRequest (endOk : Bool)
  | timeTick (now : ℕ)
deriving DecidableEq, Repr

/-- The body of the `sendUpdate` closure in App.tsx: generate the next
charger state, add the energy increment to the accumulator, and, when the
captured `transaction_id` is truthy, issue a `sendChargeUpdate` call with
every numeric field rounded to 2 decimal places.  Status, transaction id
and interval handle are untouched.  `tid?` is the closure's captured
`transaction_id`. -/
def applySendUpdate (m : Machine) (tid? : Option String)
    (rS rV rP rT : ℚ) : Machine × List NetCall :=
  let next := generateNextState m.chargerState rS rV rP rT
  let e := energyStep m.energyDispensed next.powerW INTERVAL_SECONDS
  let calls := match tid? with
    | some t => if truthy t then [sendChargeUpdate t (mkPayload next)] else []
    | none => []
  ({ m with chargerState := next
          , energyDispensed := e
          , updatesInFlight := m.updatesInFlight + calls.length }, calls)

/-- One step of the event semantics, interpreting the handlers of App.tsx.

* `startRequest`: `startSession` up to its `await` — clear the error, set
  status `starting`, record the captured start time, and issue the
  `startCharge` call (with the initial SOC rounded to 2 decimals); rejected
  without a call when the button guard `startAllowed` fails.
* `startOk`: the continuation after `startCharge` resolves — store the
  transaction id, set the start time, zero `elapsedSeconds` and
  `energyDispensed`, set status `running`, run the immediate first
  `sendUpdate`, then install the interval.
* `startFail`: the `catch` of `startSession` — record the message, status
  `error`; no interval is started.
* `tick`: the interval firing — runs the `sendUpdate` closure with the
  captured `transaction_id`, whatever the current status; enabled only
  while the interval is installed.
* `updateOk`: a `sendChargeUpdate` promise resolves — no state change.
* `updateFail`: the `.catch` of `sendChargeUpdate` — unconditionally record
  the message and set status `error`; the interval handle is not cleared.
* `stopRequest`: `stopSession` — status `stopping`, clear the intervals,
  issue `endCharge` when `transactionId` is truthy (its result `endOk` is
  only logged), then reset: status `idle`, transaction id, start time,
  elapsed, energy cleared, charger state restored to the initial state.
* `timeTick`: the elapsed-time effect — recompute `elapsedSeconds` from the
  start time while `running`. -/
def step (m : Machine) (e : Event) : Machine × List NetCall :=
  match e with
  | Event.startRequest now =>
      if startAllowed m.status then
        ({ m with status := SessionStatus.starting
                , err := none
                , startReqTime := some now
                , startsInFlight := m.startsInFlight + 1 },
         [startCharge now (round2 INITIAL_SOC)])
      else (m, [])
  | Event.startOk tid rS rV rP rT =>
      if m.startsInFlight = 0 then (m, [])
      else
        let m1 := { m with transactionId := some tid
                         , startTime := m.startReqTime
                         , elapsedSeconds := 0
                         , energyDispensed := 0
                         , status := SessionStatus.running
                         , closureTid := some tid
                         , startsInFlight := m.startsInFlight - 1 }
        let r := applySendUpdate m1 (some tid) rS rV rP rT
        ({ r.1 with intervalActive := true }, r.2)
  | Event.startFail msg =>
      if m.startsInFlight = 0 then (m, [])
      else ({ m with status := SessionStatus.error
                   , err := some msg
                   , startsInFlight := m.startsInFlight - 1 }, [])
  | Event.tick rS rV rP rT =>
      if m.intervalActive then applySendUpdate m m.closureTid rS rV rP rT
      else (m, [])
  | Event.updateOk =>
      if m.updatesInFlight = 0 then (m, [])
      else ({ m with updatesInFlight := m.updatesInFlight - 1 }, [])
  | Event.updateFail msg =>
      if m.updatesInFlight = 0 then (m, [])
      else ({ m with err := some msg
                   , status := SessionStatus.error
                   , updatesInFlight := m.updatesInFlight - 1 }, [])
  | Event.stopRequest _ =>
      if stopAllowed m.status then
        let calls := match m.transactionId with
          | some t => if truthy t then [endCharge t] else []
          | none => []
        ({ m with status := SessionStatus.idle
                , transactionId := none
                , startTime := none
                , elapsedSeconds := 0
                , energyDispensed := 0
                , chargerState := initialChargerState
                , intervalActive := false }, calls)
      else (m, [])
  | Event.timeTick now =>
      if m.status == SessionStatus.running then
        match m.startTime with
        | some t0 => ({ m with elapsedSeconds := now - t0 }, [])
        | none => (m, [])
      else (m, [])

/-- Run the machine over a list of events, discarding the emitted calls. -/
def run (m : Machine) : List Event → Machine
  | [] => m
  | e :: es => run (step m e).1 es

/-- Iterate the generator over a list of random draws, one 4-tuple
`(rS, rV, rP, rT)` per tick. -/
def genTrace (cs : ChargerState) : List (ℚ × ℚ × ℚ × ℚ) → ChargerState
  | [] => cs
  | r :: rs => genTrace (generateNextState cs r.1 r.2.1 r.2.2.1 r.2.2.2) rs

/-! ## Theorems -/

lemma soc_step_bounds (prev : ChargerState) (rS rV rP rT : ℚ)
    (h0 : 0 ≤ rS) (hs : prev.soc ≤ 90) :
    prev.soc ≤ (generateNextState prev rS rV rP rT).soc ∧
      (generateNextState prev rS rV rP rT).soc ≤ 90 := by
  have hsoc : (generateNextState prev rS rV rP rT).soc
      = min TARGET_SOC (prev.soc + 1 + rS * 1) := rfl
  rw [hsoc]
  unfold TARGET_SOC
  refine ⟨le_min hs (by linarith), min_le_left _ _⟩

lemma genTrace_soc_bounds (rs : List (ℚ × ℚ × ℚ × ℚ)) :
    ∀ cs : ChargerState, (∀ r ∈ rs, 0 ≤ r.1 ∧ r.1 < 1) → cs.soc ≤ 90 →
      cs.soc ≤ (genTrace cs rs).soc ∧ (genTrace cs rs).soc ≤ 90 := by
  induction rs with
  | nil => exact fun cs _ h => ⟨le_refl _, h⟩
  | cons r rs ih =>
      intro cs hg h
      have hr := hg r (List.mem_cons_self _ _)
      have hstep := soc_step_bounds cs r.1 r.2.1 r.2.2.1 r.2.2.2 hr.1 h
      have hrest := ih (generateNextState cs r.1 r.2.1 r.2.2.1 r.2.2.2)
        (fun x hx => hg x (List.mem_cons_of_mem _ hx)) hstep.2
      exact ⟨le_trans hstep.1 hrest.1, hrest.2⟩

/-- C5: for every previous state with soc in [0, 90] and per-tick random
draw `rS` in [0, 1), the generator's next soc equals the previous soc plus
a random amount `1 + rS * 1` lying in [1, 2), clamped to the target ceiling
90; consequently soc is non-decreasing across every sequence of ticks,
never exceeds 90, and once at 90 it stays at 90. -/
theorem soc_clamped_and_monotone (prev : ChargerState) (rS rV rP rT : ℚ)
    (h0 : 0 ≤ rS) (h1 : rS < 1) (_hlo : 0 ≤ prev.soc) (hhi : prev.soc ≤ 90) :
    (generateNextState prev rS rV rP rT).soc = min 90 (prev.soc + (1 + rS * 1)) ∧
    1 ≤ 1 + rS * 1 ∧ 1 + rS * 1 < 2 ∧
    prev.soc ≤ (generateNextState prev rS rV rP rT).soc ∧
    (generateNextState prev rS rV rP rT).soc ≤ 90 ∧
    (prev.soc = 90 → (generateNextState prev rS rV rP rT).soc = 90) ∧
    ∀ rs : List (ℚ × ℚ × ℚ × ℚ), (∀ r ∈ rs, 0 ≤ r.1 ∧ r.1 < 1) →
      prev.soc ≤ (genTrace prev rs).soc ∧ (genTrace prev rs).soc ≤ 90 := by
  have hb := soc_step_bounds prev rS rV rP rT h0 hhi
  refine ⟨?_, by linarith, by linarith, hb.1, hb.2, ?_, ?_⟩
  · show min TARGET_SOC (prev.soc + 1 + rS * 1) = min 90 (prev.soc + (1 + rS * 1))
    unfold TARGET_SOC
    rw [add_assoc]
  · intro h90
    show min TARGET_SOC (prev.soc + 1 + rS * 1) = 90
    unfold TARGET_SOC
    rw [h90]
    exact min_eq_left (by linarith)
  · exact fun rs hg => genTrace_soc_bounds rs prev hg hhi

/-- Witness for C5 at the configured initial state and `rS = 1/2`. -/
theorem soc_clamped_and_monotone_witness :
    (0 : ℚ) ≤ 1/2 ∧ (1/2 : ℚ) < 1 ∧
    (0 : ℚ) ≤ initialChargerState.soc ∧ initialChargerState.soc ≤ 90 ∧
    ((generateNextState initialChargerState (1/2) 0 0 0).soc
        = min 90 (initialChargerState.soc + (1 + (1/2 : ℚ) * 1)) ∧
      1 ≤ 1 + (1/2 : ℚ) * 1 ∧ 1 + (1/2 : ℚ) * 1 < 2 ∧
      initialChargerState.soc ≤ (generateNextState initialChargerState (1/2) 0 0 0).soc ∧
      (generateNextState initialChargerState (1/2) 0 0 0).soc ≤ 90 ∧
      (initialChargerState.soc = 90 →
        (generateNextState initialChargerState (1/2) 0 0 0).soc = 90) ∧
      ∀ rs : List (ℚ × ℚ × ℚ × ℚ), (∀ r ∈ rs, 0 ≤ r.1 ∧ r.1 < 1) →
        initialChargerState.soc ≤ (genTrace initialChargerState rs).soc ∧
          (genTrace initialChargerState rs).soc ≤ 90) :=
  ⟨by norm_num, by norm_num,
    by norm_num [initialChargerState, INITIAL_SOC],
    by norm_num [initialChargerState, INITIAL_SOC],
    soc_clamped_and_monotone initialChargerState (1/2) 0 0 0
      (by norm_num) (by norm_num)
      (by norm_num [initialChargerState, INITIAL_SOC])
      (by norm_num [initialChargerState, INITIAL_SOC])⟩

/-- C8: for every input state and random draws, the generated `currentA`
equals `powerW / voltageV` of the same tick exactly — it is derived from
that tick's power and voltage, never independently sampled. -/
theorem currentA_derived (prev : ChargerState) (rS rV rP rT : ℚ) :
    (generateNextState prev rS rV rP rT).currentA =
      (generateNextState prev rS rV rP rT).powerW /
        (generateNextState prev rS rV rP rT).voltageV := rfl

/-- C9: one integration step adds exactly
`(powerW / 1000) * (intervalSeconds / 3600)` kWh; after `n` ticks of
constant power the accumulator equals `e0 + n` times that increment (exact
rational arithmetic, hence within any floating-point tolerance); and the
machine's per-tick energy update performs exactly this step on the freshly
generated sample. -/
theorem energy_integration_exact (e0 powerW intervalSeconds : ℚ) (n : ℕ)
    (m : Machine) (tid? : Option String) (rS rV rP rT : ℚ) :
    energyStep e0 powerW intervalSeconds
        = e0 + (powerW / 1000) * (intervalSeconds / 3600) ∧
    energyAfterTicks e0 powerW intervalSeconds n
        = e0 + (n : ℚ) * ((powerW / 1000) * (intervalSeconds / 3600)) ∧
    (applySendUpdate m tid? rS rV rP rT).1.energyDispensed
        = m.energyDispensed +
            ((generateNextState m.chargerState rS rV rP rT).powerW / 1000) *
              (INTERVAL_SECONDS / 3600) := by
  refine ⟨rfl, ?_, rfl⟩
  induction n with
  | zero => simp [energyAfterTicks]
  | succ k ih =>
      show energyAfterTicks e0 powerW intervalSeconds k +
          (powerW / 1000) * (intervalSeconds / 3600) = _
      rw [ih]
      push_cast
      ring

/-- C10: for every input state and power-noise draw `rP` in [0, 1), the
generated power lies in [9000, 55000) watts (taper factor floored at 0.2 of
the 50000 W maximum, noise factor in [0.9, 1.1)); in particular it is
strictly positive, each tick's energy increment is strictly positive, and
the accumulator strictly increases at each integration step. -/
theorem powerW_bounds (prev : ChargerState) (rS rV rP rT : ℚ)
    (h0 : 0 ≤ rP) (h1 : rP < 1) :
    9000 ≤ (generateNextState prev rS rV rP rT).powerW ∧
    (generateNextState prev rS rV rP rT).powerW < 55000 ∧
    0 < (generateNextState prev rS rV rP rT).powerW ∧
    0 < energyIncrement (generateNextState prev rS rV rP rT).powerW INTERVAL_SECONDS ∧
    ∀ e0 : ℚ, e0 < energyStep e0 (generateNextState prev rS rV rP rT).powerW
        INTERVAL_SECONDS := by
  have hP : (generateNextState prev rS rV rP rT).powerW =
      (50000 * max 0.2 (1 - max 0
          (min TARGET_SOC (prev.soc + 1 + rS * 1) / 100 - 0.6) * 1.5)) *
        (0.9 + rP * 0.2) := rfl
  set B := max (0.2 : ℚ)
    (1 - max 0 (min TARGET_SOC (prev.soc + 1 + rS * 1) / 100 - 0.6) * 1.5) with hB
  have hB1 : (0.2 : ℚ) ≤ B := le_max_left _ _
  have hB2 : B ≤ 1 := by
    have hnn : (0 : ℚ) ≤ max 0 (min TARGET_SOC (prev.soc + 1 + rS * 1) / 100 - 0.6) :=
      le_max_left _ _
    refine max_le (by norm_num) (by nlinarith)
  have hF1 : (0.9 : ℚ) ≤ 0.9 + rP * 0.2 := by nlinarith
  have hF2 : 0.9 + rP * 0.2 < (1.1 : ℚ) := by nlinarith
  have hlow : (9000 : ℚ) ≤ (generateNextState prev rS rV rP rT).powerW := by
    rw [hP]
    nlinarith [mul_nonneg (sub_nonneg.mpr hB1) (sub_nonneg.mpr hF1)]
  have hhigh : (generateNextState prev rS rV rP rT).powerW < 55000 := by
    rw [hP]
    nlinarith [mul_nonneg (sub_nonneg.mpr hB2) (sub_nonneg.mpr hF1)]
  have hpos : (0 : ℚ) < (generateNextState prev rS rV rP rT).powerW := by linarith
  have hinc : 0 < energyIncrement (generateNextState prev rS rV rP rT).powerW
      INTERVAL_SECONDS := by
    unfold energyIncrement INTERVAL_SECONDS
    positivity
  exact ⟨hlow, hhigh, hpos, hinc, fun e0 => by
    have : energyStep e0 (generateNextState prev rS rV rP rT).powerW INTERVAL_SECONDS
        = e0 + energyIncrement (generateNextState prev rS rV rP rT).powerW
            INTERVAL_SECONDS := rfl
    rw [this]
    linarith⟩

/-- Witness for C10 at the configured initial state and `rP = 1/2`. -/
theorem powerW_bounds_witness :
    (0 : ℚ) ≤ 1/2 ∧ (1/2 : ℚ) < 1 ∧
    (9000 ≤ (generateNextState initialChargerState 0 0 (1/2) 0).powerW ∧
      (generateNextState initialChargerState 0 0 (1/2) 0).powerW < 55000 ∧
      0 < (generateNextState initialChargerState 0 0 (1/2) 0).powerW ∧
      0 < energyIncrement (generateNextState initialChargerState 0 0 (1/2) 0).powerW
          INTERVAL_SECONDS ∧
      ∀ e0 : ℚ, e0 < energyStep e0
          (generateNextState initialChargerState 0 0 (1/2) 0).powerW INTERVAL_SECONDS) :=
  ⟨by norm_num, by norm_num,
    powerW_bounds initialChargerState 0 0 (1/2) 0 (by norm_num) (by norm_num)⟩

/-- C7 counterexample: abstracting the hardcoded voltage-band constants to
a configuration whose band is exactly zero, the generator does not fail
fast — it is a total function that still returns a state, with
`voltageV = 0` and nonzero power, and its current field is the unguarded
quotient `powerW / 0` (the JS value `Infinity`; `0` under the ℚ
division-by-zero convention). -/
theorem zero_voltage_band_no_failfast :
    (generateNextStateBand 0 0 initialChargerState 0 0 0 0).voltageV = 0 ∧
    (generateNextStateBand 0 0 initialChargerState 0 0 0 0).powerW = 45000 ∧
    (generateNextStateBand 0 0 initialChargerState 0 0 0 0).currentA =
      (generateNextStateBand 0 0 initialChargerState 0 0 0 0).powerW / 0 := by
  have hv : (generateNextStateBand 0 0 initialChargerState 0 0 0 0).voltageV
      = 0 + 0 * 0 := rfl
  have hc : (generateNextStateBand 0 0 initialChargerState 0 0 0 0).currentA
      = (generateNextStateBand 0 0 initialChargerState 0 0 0 0).powerW /
          (generateNextStateBand 0 0 initialChargerState 0 0 0 0).voltageV := rfl
  refine ⟨by rw [hv]; norm_num, ?_, by rw [hc, hv]; norm_num⟩
  show (50000 * max 0.2 (1 - max 0
      (min TARGET_SOC (initialChargerState.soc + 1 + 0 * 1) / 100 - 0.6) * 1.5)) *
        (0.9 + 0 * 0.2) = 45000
  norm_num [initialChargerState, INITIAL_SOC, TARGET_SOC, min_def, max_def]

/-- C7 amended: the generator has no fail-fast path; instead, its voltage
band is hardcoded to `380 + r * 40`, so for every random draw `rV` in [0, 1)
the emitted voltage lies in [380, 420) and in particular is never zero,
which keeps the derived current `powerW / voltageV` well defined (finite). -/
theorem voltage_band_excludes_zero (prev : ChargerState) (rS rV rP rT : ℚ)
    (h0 : 0 ≤ rV) (h1 : rV < 1) :
    generateNextState prev rS rV rP rT = generateNextStateBand 380 40 prev rS rV rP rT ∧
    380 ≤ (generateNextState prev rS rV rP rT).voltageV ∧
    (generateNextState prev rS rV rP rT).voltageV < 420 ∧
    (generateNextState prev rS rV rP rT).voltageV ≠ 0 := by
  have hv : (generateNextState prev rS rV rP rT).voltageV = 380 + rV * 40 := rfl
  refine ⟨rfl, ?_, ?_, ?_⟩
  · rw [hv]; nlinarith
  · rw [hv]; nlinarith
  · rw [hv]; intro h; nlinarith

/-- The machine invariant backing the stop path: while `running`, the
machine stores the truthy transaction id captured from the successful start
response. -/
def runningHasTid (m : Machine) : Prop :=
  m.status = SessionStatus.running →
    ∃ t, m.transactionId = some t ∧ truthy t = true

/-- Start settlements carrying a truthy (nonempty) transaction id, as
returned by a collector that actually identifies the session. -/
def goodStartEvent : Event → Bool
  | Event.startOk tid _ _ _ _ => truthy tid
  | _ => true

lemma runningHasTid_step (m : Machine) (e : Event)
    (hm : runningHasTid m) (he : goodStartEvent e = true) :
    runningHasTid (step m e).1 := by
  cases e with
  | startRequest now =>
      simp only [step]
      split
      · exact fun h => SessionStatus.noConfusion h
      · exact hm
  | startOk tid rS rV rP rT =>
      simp only [step]
      split
      · exact hm
      · exact fun _ => ⟨tid, rfl, he⟩
  | startFail msg =>
      simp only [step]
      split
      · exact hm
      · exact fun h => SessionStatus.noConfusion h
  | tick rS rV rP rT =>
      simp only [step]
      split
      · exact fun h => hm h
      · exact hm
  | updateOk =>
      simp only [step]
      split
      · exact hm
      · exact fun h => hm h
  | updateFail msg =>
      simp only [step]
      split
      · exact hm
      · exact fun h => SessionStatus.noConfusion h
  | stopRequest endOk =>
      simp only [step]
      split
      · exact fun h => SessionStatus.noConfusion h
      · exact hm
  | timeTick now =>
      simp only [step]
      split
      · split
        · exact fun h => hm h
        · exact hm
      · exact hm

lemma runningHasTid_run (es : List Event) :
    ∀ m : Machine, runningHasTid m → (∀ e ∈ es, goodStartEvent e = true) →
      runningHasTid (run m es) := by
  induction es with
  | nil => exact fun m hm _ => hm
  | cons e es ih =>
      intro m hm hg
      exact ih (step m e).1
        (runningHasTid_step m e hm (hg e (List.mem_cons_self _ _)))
        (fun x hx => hg x (List.mem_cons_of_mem _ hx))

lemma stopRequest_step (m : Machine) (endOk : Bool) (t : String)
    (hrun : m.status = SessionStatus.running)
    (ht : m.transactionId = some t) (htt : truthy t = true) :
    step m (Event.stopRequest endOk) =
      ({ m with status := SessionStatus.idle
              , transactionId := none
              , startTime := none
              , elapsedSeconds := 0
              , energyDispensed := 0
              , chargerState := initialChargerState
              , intervalActive := false }, [endCharge t]) := by
  have hc : stopAllowed m.status = true := by rw [hrun]; rfl
  simp [step, hc, ht, htt]

/-- C1: from every reachable machine in status `running` (over traces whose
start settlements carry a real transaction id), a stop request emits
exactly one network call, that call an EndSession, and — whatever the
EndSession outcome `endOk` — the resulting machine is `idle` with
`energyDispensedKWh = 0`, `elapsedSeconds = 0`, transaction id and start
time cleared, and the charger state restored to the configured initial
state. -/
theorem stop_from_running_resets (es : List Event) (endOk : Bool)
    (hg : ∀ e ∈ es, goodStartEvent e = true)
    (hrun : (run initialMachine es).status = SessionStatus.running) :
    ((step (run initialMachine es) (Event.stopRequest endOk)).2.countP isEndSession = 1) ∧
    (step (run initialMachine es) (Event.stopRequest endOk)).2.length = 1 ∧
    (step (run initialMachine es) (Event.stopRequest endOk)).1.status = SessionStatus.idle ∧
    (step (run initialMachine es) (Event.stopRequest endOk)).1.energyDispensed = 0 ∧
    (step (run initialMachine es) (Event.stopRequest endOk)).1.elapsedSeconds = 0 ∧
    (step (run initialMachine es) (Event.stopRequest endOk)).1.transactionId = none ∧
    (step (run initialMachine es) (Event.stopRequest endOk)).1.startTime = none ∧
    (step (run initialMachine es) (Event.stopRequest endOk)).1.chargerState
      = initialChargerState := by
  obtain ⟨t, ht, htt⟩ := runningHasTid_run es initialMachine
    (fun h => absurd h (by decide)) hg hrun
  rw [stopRequest_step (run initialMachine es) endOk t hrun ht htt]
  refine ⟨?_, rfl, rfl, rfl, rfl, rfl, rfl, rfl⟩
  simp [endCharge, isEndSession]

/-- Witness for C1: a freshly started session, stopped with a succeeding
EndSession. -/
theorem stop_from_running_resets_witness :
    (∀ e ∈ [Event.startRequest 0, Event.startOk "t1" 0 0 0 0],
        goodStartEvent e = true) ∧
    (run initialMachine [Event.startRequest 0, Event.startOk "t1" 0 0 0 0]).status
        = SessionStatus.running ∧
    (((step (run initialMachine [Event.startRequest 0, Event.startOk "t1" 0 0 0 0])
        (Event.stopRequest true)).2.countP isEndSession = 1) ∧
      (step (run initialMachine [Event.startRequest 0, Event.startOk "t1" 0 0 0 0])
        (Event.stopRequest true)).2.length = 1 ∧
      (step (run initialMachine [Event.startRequest 0, Event.startOk "t1" 0 0 0 0])
        (Event.stopRequest true)).1.status = SessionStatus.idle ∧
      (step (run initialMachine [Event.startRequest 0, Event.startOk "t1" 0 0 0 0])
        (Event.stopRequest true)).1.energyDispensed = 0 ∧
      (step (run initialMachine [Event.startRequest 0, Event.startOk "t1" 0 0 0 0])
        (Event.stopRequest true)).1.elapsedSeconds = 0 ∧
      (step (run initialMachine [Event.startRequest 0, Event.startOk "t1" 0 0 0 0])
        (Event.stopRequest true)).1.transactionId = none ∧
      (step (run initialMachine [Event.startRequest 0, Event.startOk "t1" 0 0 0 0])
        (Event.stopRequest true)).1.startTime = none ∧
      (step (run initialMachine [Event.startRequest 0, Event.startOk "t1" 0 0 0 0])
        (Event.stopRequest true)).1.chargerState = initialChargerState) :=
  ⟨by decide, by decide,
    stop_from_running_resets [Event.startRequest 0, Event.startOk "t1" 0 0 0 0]
      true (by decide) (by decide)⟩

/-- C2: evaluation at the failing input — after the first update call of a
running session settles with failure, the machine records the message and
enters `error` without reverting the applied charger-state/energy update,
but the interval is still installed (the handler never clears it) and the
next tick emits a further SendUpdate call, against the claimed
cancellation. -/
theorem update_failure_keeps_ticking :
    (run initialMachine [Event.startRequest 0, Event.startOk "t1" 0 0 0 0,
        Event.updateFail "boom"]).status = SessionStatus.error ∧
    (run initialMachine [Event.startRequest 0, Event.startOk "t1" 0 0 0 0,
        Event.updateFail "boom"]).err = some "boom" ∧
    (run initialMachine [Event.startRequest 0, Event.startOk "t1" 0 0 0 0,
        Event.updateFail "boom"]).chargerState
      = (run initialMachine
          [Event.startRequest 0, Event.startOk "t1" 0 0 0 0]).chargerState ∧
    (run initialMachine [Event.startRequest 0, Event.startOk "t1" 0 0 0 0,
        Event.updateFail "boom"]).energyDispensed
      = (run initialMachine
          [Event.startRequest 0, Event.startOk "t1" 0 0 0 0]).energyDispensed ∧
    (run initialMachine [Event.startRequest 0, Event.startOk "t1" 0 0 0 0,
        Event.updateFail "boom"]).intervalActive = true ∧
    ((step (run initialMachine [Event.startRequest 0, Event.startOk "t1" 0 0 0 0,
        Event.updateFail "boom"]) (Event.tick 0 0 0 0)).2.countP isSendUpdate) = 1 :=
  ⟨by decide, by decide, rfl, rfl, by decide, by decide⟩

/-- C3: evaluation at the failing input — a session is started, its first
update call is still in flight when the stop request completes successfully
(the machine reaches `idle`), and the in-flight update then settles with
failure: the unconditional failure handler moves the machine from `idle`
back to `error` instead of only logging. -/
theorem late_update_failure_regresses :
    (run initialMachine [Event.startRequest 0, Event.startOk "t1" 0 0 0 0,
        Event.stopRequest true]).status = SessionStatus.idle ∧
    (run initialMachine [Event.startRequest 0, Event.startOk "t1" 0 0 0 0,
        Event.stopRequest true]).updatesInFlight = 1 ∧
    (run initialMachine [Event.startRequest 0, Event.startOk "t1" 0 0 0 0,
        Event.stopRequest true, Event.updateFail "late"]).status
      = SessionStatus.error ∧
    (run initialMachine [Event.startRequest 0, Event.startOk "t1" 0 0 0 0,
        Event.stopRequest true, Event.updateFail "late"]).err = some "late" :=
  ⟨by decide, by decide, by decide, by decide⟩

/-- C4 counterexample: after a failed start the machine is in status
`error` — not `idle` — yet a start request is accepted and issues a
StartSession network call (the restart-from-error path), refuting
"rejected without issuing any network call for every status other than
idle". -/
theorem start_in_error_issues_call :
    (run initialMachine [Event.startRequest 0, Event.startFail "down"]).status
        = SessionStatus.error ∧
    (step (run initialMachine [Event.startRequest 0, Event.startFail "down"])
        (Event.startRequest 5)).2 = [startCharge 5 (round2 INITIAL_SOC)] ∧
    ((step (run initialMachine [Event.startRequest 0, Event.startFail "down"])
        (Event.startRequest 5)).2.countP isStartSession) = 1 :=
  ⟨by decide, rfl, by decide⟩

/-- In-flight start calls are bounded by one and pending only while
`starting`. -/
def startsBounded (m : Machine) : Prop :=
  m.startsInFlight ≤ 1 ∧
    (m.startsInFlight = 1 → m.status = SessionStatus.starting)

/-- Traces in which no update failure settles while a start call is pending
(status `starting`) — the racy interleaving through which the unconditional
update-failure handler can knock the machine out of `starting` early. -/
def safeTrace : Machine → List Event → Bool
  | _, [] => true
  | m, e :: es =>
      (match e with
       | Event.updateFail _ => !(m.status == SessionStatus.starting)
       | _ => true) && safeTrace (step m e).1 es

lemma startsBounded_step (m : Machine) (e : Event) (hm : startsBounded m)
    (he : ∀ msg, e = Event.updateFail msg → m.status ≠ SessionStatus.starting) :
    startsBounded (step m e).1 := by
  obtain ⟨hle, hone⟩ := hm
  cases e with
  | startRequest now =>
      simp only [step]
      split
      · rename_i hcond
        have h0 : m.startsInFlight = 0 := by
          rcases Nat.le_one_iff_eq_zero_or_eq_one.mp hle with h | h
          · exact h
          · exfalso
            rw [hone h] at hcond
            exact absurd hcond (by decide)
        refine ⟨?_, fun _ => rfl⟩
        show m.startsInFlight + 1 ≤ 1
        omega
      · exact ⟨hle, hone⟩
  | startOk tid rS rV rP rT =>
      simp only [step]
      split
      · exact ⟨hle, hone⟩
      · rename_i hne
        refine ⟨?_, ?_⟩
        · show m.startsInFlight - 1 ≤ 1
          omega
        · show m.startsInFlight - 1 = 1 → SessionStatus.running = SessionStatus.starting
          intro h
          exact absurd h (by omega)
  | startFail msg =>
      simp only [step]
      split
      · exact ⟨hle, hone⟩
      · rename_i hne
        refine ⟨?_, ?_⟩
        · show m.startsInFlight - 1 ≤ 1
          omega
        · show m.startsInFlight - 1 = 1 → SessionStatus.error = SessionStatus.starting
          intro h
          exact absurd h (by omega)
  | tick rS rV rP rT =>
      simp only [step]
      split
      · exact ⟨hle, hone⟩
      · exact ⟨hle, hone⟩
  | updateOk =>
      simp only [step]
      split
      · exact ⟨hle, hone⟩
      · exact ⟨hle, hone⟩
  | updateFail msg =>
      simp only [step]
      split
      · exact ⟨hle, hone⟩
      · exact ⟨hle, fun h => absurd (hone h) (he msg rfl)⟩
  | stopRequest endOk =>
      simp only [step]
      split
      · rename_i hcond
        refine ⟨hle, fun h => ?_⟩
        exfalso
        rw [hone h] at hcond
        exact absurd hcond (by decide)
      · exact ⟨hle, hone⟩
  | timeTick now =>
      simp only [step]
      split
      · split
        · exact ⟨hle, hone⟩
        · exact ⟨hle, hone⟩
      · exact ⟨hle, hone⟩

lemma startsBounded_run : ∀ (es : List Event) (m : Machine),
    startsBounded m → safeTrace m es = true → startsBounded (run m es) := by
  intro es
  induction es with
  | nil => exact fun m hm _ => hm
  | cons e es ih =>
      intro m hm hs
      simp only [safeTrace, Bool.and_eq_true] at hs
      refine ih (step m e).1 (startsBounded_step m e hm ?_) hs.2
      intro msg hmsg hst
      have h1 := hs.1
      rw [hmsg] at h1
      rw [hst] at h1
      exact Bool.noConfusion h1

/-- C4 amended: a start request is rejected without a network call exactly
when status is `running` (the button is hidden) or `starting` (the button
is disabled); from `idle`, `stopping` or `error` it issues one StartSession
call, clears the error and enters `starting`.  Because a request is
accepted only when no start is pending, at most one StartSession call is in
flight at any point of every trace in which no stale update failure settles
while the machine is `starting` (the only way to leave `starting` with the
call still pending). -/
theorem start_guard_single_flight (n : ℕ) (m : Machine) (es : List Event)
    (hsafe : safeTrace initialMachine es = true) :
    ((m.status = SessionStatus.running ∨ m.status = SessionStatus.starting) →
        step m (Event.startRequest n) = (m, [])) ∧
    ((m.status = SessionStatus.idle ∨ m.status = SessionStatus.stopping ∨
        m.status = SessionStatus.error) →
        (step m (Event.startRequest n)).2 = [startCharge n (round2 INITIAL_SOC)] ∧
        (step m (Event.startRequest n)).1.status = SessionStatus.starting ∧
        (step m (Event.startRequest n)).1.err = none) ∧
    (run initialMachine es).startsInFlight ≤ 1 := by
  refine ⟨?_, ?_, (startsBounded_run es initialMachine
    ⟨by decide, fun h => absurd h (by decide)⟩ hsafe).1⟩
  · intro h
    have hc : startAllowed m.status = false := by
      rcases h with h | h <;> rw [h] <;> rfl
    simp [step, hc]
  · intro h
    have hc : startAllowed m.status = true := by
      rcases h with h | h | h <;> rw [h] <;> rfl
    simp [step, hc]

/-- Witness for the amended C4: the guarded machine sits in `error` after a
failed start; the safe trace is a plain successful start. -/
theorem start_guard_single_flight_witness :
    safeTrace initialMachine [Event.startRequest 0, Event.startOk "t1" 0 0 0 0]
      = true ∧
    ((((run initialMachine [Event.startRequest 0, Event.startFail "down"]).status
          = SessionStatus.running ∨
        (run initialMachine [Event.startRequest 0, Event.startFail "down"]).status
          = SessionStatus.starting) →
        step (run initialMachine [Event.startRequest 0, Event.startFail "down"])
          (Event.startRequest 5)
          = (run initialMachine [Event.startRequest 0, Event.startFail "down"], [])) ∧
      (((run initialMachine [Event.startRequest 0, Event.startFail "down"]).status
          = SessionStatus.idle ∨
        (run initialMachine [Event.startRequest 0, Event.startFail "down"]).status
          = SessionStatus.stopping ∨
        (run initialMachine [Event.startRequest 0, Event.startFail "down"]).status
          = SessionStatus.error) →
        (step (run initialMachine [Event.startRequest 0, Event.startFail "down"])
            (Event.startRequest 5)).2 = [startCharge 5 (round2 INITIAL_SOC)] ∧
        (step (run initialMachine [Event.startRequest 0, Event.startFail "down"])
            (Event.startRequest 5)).1.status = SessionStatus.starting ∧
        (step (run initialMachine [Event.startRequest 0, Event.startFail "down"])
            (Event.startRequest 5)).1.err = none) ∧
      (run initialMachine
          [Event.startRequest 0, Event.startOk "t1" 0 0 0 0]).startsInFlight ≤ 1) :=
  ⟨by decide,
    start_guard_single_flight 5
      (run initialMachine [Event.startRequest 0, Event.startFail "down"])
      [Event.startRequest 0, Event.startOk "t1" 0 0 0 0] (by decide)⟩

/-- C6: evaluation at the failing input — stopping a running session emits
exactly the EndSession call built by `endCharge`, whose transmitted body is
`none`: api.ts's `endCharge` takes only the transaction id and posts no
body, so the rounded final snapshot built by `stopSession` is dropped and
no end call ever carries a record. -/
theorem end_call_carries_no_record :
    (run initialMachine [Event.startRequest 0, Event.startOk "t1" 0 0 0 0]).status
        = SessionStatus.running ∧
    (step (run initialMachine [Event.startRequest 0, Event.startOk "t1" 0 0 0 0])
        (Event.stopRequest true)).2 = [NetCall.endSession "t1" none] ∧
    endCharge "t1" = NetCall.endSession "t1" none ∧
    ∀ p : ChargeUpdatePayload,
      NetCall.endSession "t1" (some p) ∉
        (step (run initialMachine [Event.startRequest 0, Event.startOk "t1" 0 0 0 0])
          (Event.stopRequest true)).2 := by
  have hcalls : (step (run initialMachine
      [Event.startRequest 0, Event.startOk "t1" 0 0 0 0])
      (Event.stopRequest true)).2 = [NetCall.endSession "t1" none] := by decide
  refine ⟨by decide, hcalls, rfl, ?_⟩
  intro p hp
  rw [hcalls] at hp
  simp at hp

/-- Witness for the amended C7 at the configured initial state and
`rV = 1/2`. -/
theorem voltage_band_excludes_zero_witness :
    (0 : ℚ) ≤ 1/2 ∧ (1/2 : ℚ) < 1 ∧
    (generateNextState initialChargerState 0 (1/2) 0 0
        = generateNextStateBand 380 40 initialChargerState 0 (1/2) 0 0 ∧
      380 ≤ (generateNextState initialChargerState 0 (1/2) 0 0).voltageV ∧
      (generateNextState initialChargerState 0 (1/2) 0 0).voltageV < 420 ∧
      (generateNextState initialChargerState 0 (1/2) 0 0).voltageV ≠ 0) :=
  ⟨by norm_num, by norm_num,
    voltage_band_excludes_zero initialChargerState 0 (1/2) 0 0 (by norm_num) (by norm_num)⟩

end ChargerSim
